import Mathlib

/-!
# Verification of the salesmanager record service (`src/app.py`)

Shallow embedding of the SQLite-backed record service: the three-table
schema (`purchases`, `sales`, `orders` with their CHECK constraints and
AUTOINCREMENT ids), the utility functions `add_record`,
`update_record_status`, `fetch_data`, `validate_input`, the form submit
handlers, and the CSV export (`DataFrame.to_csv(index=False)`).

Python / SQLite features are modelled as follows:
* SQLite `REAL` values are modelled as rationals (`ℚ`), `INTEGER` as `Int`,
  `TEXT` as `String`; `DATE` values arrive from the app as ISO strings via
  the default `sqlite3` date adapter and are modelled as text.
* `INTEGER PRIMARY KEY AUTOINCREMENT` is modelled by a per-table `nextId`
  counter that only ever increases, so a freshly assigned id is strictly
  larger than every id ever assigned in that table.
* A failed statement (CHECK violation, arity mismatch, missing column)
  raises an exception and leaves the database unchanged (SQLite statements
  are atomic); operations therefore return `Except`, and `applyAdd` /
  `applySubmit...` give the post-state of a call whose exception propagates.
* Python exceptions are modelled by `AppError`: `validationError` for the
  `ValueError` raised by `validate_input` (carrying the kwarg name used in
  the message `"{field} cannot be empty!"`), `constraintViolation` for
  `sqlite3.IntegrityError`, `operationalError` for `sqlite3.OperationalError`.
* Only the value shapes the application can pass to the store are given
  meaning by the schema checks; SQLite type-affinity coercions of other
  shapes are not exercised by the app and are conservatively rejected.
-/

namespace SalesManager

/-- A value stored in (or bound into) a SQLite cell. -/
inductive Value where
  | null : Value
  | int : Int → Value
  | real : ℚ → Value
  | text : String → Value
deriving DecidableEq, Repr

/-- The three tables created by the app (`CREATE TABLE IF NOT EXISTS ...`);
the app only ever interpolates these three names into its SQL. -/
inductive TableName where
  | purchases | sales | orders
deriving DecidableEq, Repr

/-- One stored row: the AUTOINCREMENT `id` plus the remaining columns in
declaration order. -/
structure Row where
  id : Nat
  fields : List Value
deriving DecidableEq, Repr

/-- One table: its rows in insertion (rowid) order, plus the AUTOINCREMENT
sequence value: the id the next successful insert will receive. -/
structure Table where
  rows : List Row
  nextId : Nat
deriving DecidableEq, Repr

/-- The whole store `secure_business_manager.db`. -/
structure DB where
  purchases : Table
  sales : Table
  orders : Table
deriving DecidableEq, Repr

/-- Errors the Python code can raise on a service call. -/
inductive AppError where
  /-- `ValueError(f"{field} cannot be empty!")` from `validate_input`. -/
  | validationError : String → AppError
  /-- `sqlite3.IntegrityError`: a CHECK / NOT NULL constraint rejected the
  statement at the storage layer. -/
  | constraintViolation : AppError
  /-- `sqlite3.OperationalError`: malformed statement (wrong number of
  values, no such column, ...). -/
  | operationalError : AppError
deriving DecidableEq, Repr

/-- A freshly created table (AUTOINCREMENT starts at 1). -/
def initTable : Table := { rows := [], nextId := 1 }

/-- The store right after the `CREATE TABLE IF NOT EXISTS` statements run on
a fresh database file. -/
def initDB : DB := { purchases := initTable, sales := initTable, orders := initTable }

/-- Look up a table of the store by name. -/
def dbTable (db : DB) : TableName → Table
  | .purchases => db.purchases
  | .sales => db.sales
  | .orders => db.orders

/-- Replace a table of the store by name. -/
def setDbTable (db : DB) : TableName → Table → DB
  | .purchases, t => { db with purchases := t }
  | .sales, t => { db with sales := t }
  | .orders, t => { db with orders := t }

/-- Number of columns excluding `id`; `INSERT INTO {table} VALUES (NULL, …)`
must bind exactly this many values. -/
def tableArity : TableName → Nat
  | .purchases => 5
  | .sales => 5
  | .orders => 4

/-- Column names in declaration order, as `cursor.description` reports them. -/
def tableColumns : TableName → List String
  | .purchases => ["id", "product_name", "price", "quantity", "vendor", "purchase_date"]
  | .sales => ["id", "product_name", "price", "quantity", "customer", "sale_date"]
  | .orders => ["id", "product_name", "quantity", "status", "order_date"]

/-- The orders `status` CHECK: `status IN ('Pending', 'Completed')`. -/
def statusOk (s : String) : Bool := s = "Pending" || s = "Completed"

/-- The schema constraints of each table, applied to the bound values (in
column order, excluding `id`): NOT NULL on every column, `price >= 0`,
`quantity > 0`, and the status enumeration for orders.  Shapes the
application never produces are rejected. -/
def rowCheck : TableName → List Value → Bool
  | .purchases, [.text _, .real p, .int q, .text _, .text _] =>
      decide (0 ≤ p) && decide (0 < q)
  | .sales, [.text _, .real p, .int q, .text _, .text _] =>
      decide (0 ≤ p) && decide (0 < q)
  | .orders, [.text _, .int q, .text s, .text _] =>
      decide (0 < q) && statusOk s
  | _, _ => false

/-- `add_record(table, data)`: executes
`INSERT INTO {table} VALUES (NULL, ?, …, ?)` and commits.  On success the
store generates the id `nextId` for the new row; the Python function body
has no `return` statement, so the caller receives `None`, modelled by the
`Option Nat` component always being `none`. -/
def add_record (db : DB) (tn : TableName) (data : List Value) :
    Except AppError (DB × Option Nat) :=
  if data.length ≠ tableArity tn then
    .error .operationalError
  else if rowCheck tn data then
    let t := dbTable db tn
    .ok (setDbTable db tn { rows := t.rows ++ [{ id := t.nextId, fields := data }],
                            nextId := t.nextId + 1 }, none)
  else
    .error .constraintViolation

/-- The store state after a call to `add_record` returns or raises: a failed
statement leaves the database unchanged. -/
def applyAdd (db : DB) (tn : TableName) (data : List Value) : DB :=
  match add_record db tn data with
  | .ok p => p.1
  | .error _ => db

/-- In `orders`, `status` is the third column after `id` (index 2 of the
bound fields); `SET status = ?` rewrites exactly that cell. -/
def setStatus (r : Row) (newStatus : String) : Row :=
  { r with fields := r.fields.set 2 (.text newStatus) }

/-- The store with the status rewrite of `UPDATE orders SET status = ?
WHERE id = ?` mapped over the order rows. -/
def updatedOrders (db : DB) (recordId : Nat) (newStatus : String) : DB :=
  { db with orders :=
    { db.orders with rows := db.orders.rows.map fun r =>
        if r.id = recordId then setStatus r newStatus else r } }

/-- `update_record_status(table, record_id, new_status)`: executes
`UPDATE {table} SET status = ? WHERE id = ?` and commits.  Only `orders` has
a `status` column (the app only ever passes `"orders"`); on any other table
SQLite raises `no such column`.  A row matching the id with an invalid new
status violates the CHECK constraint, aborting the statement with no change;
otherwise every matching row (at most one, ids are unique) has its status
cell replaced, and matching zero rows is a silent success. -/
def update_record_status (db : DB) (tn : TableName) (recordId : Nat)
    (newStatus : String) : Except AppError DB :=
  match tn with
  | .orders =>
    if (db.orders.rows.any fun r => r.id = recordId) && !statusOk newStatus then
      .error .constraintViolation
    else
      .ok (updatedOrders db recordId newStatus)
  | _ => .error .operationalError

/-- `fetch_data(table)`: `SELECT * FROM {table}` followed by `fetchall()`;
a plain table scan returns the rows in rowid order, every column included,
`id` first. -/
def fetch_data (db : DB) (tn : TableName) : List (List Value) :=
  (dbTable db tn).rows.map fun r => .int (r.id : Int) :: r.fields

/-- A Python value as passed to `validate_input` via `**kwargs`. -/
inductive PyVal where
  | pnone : PyVal
  | pint : Int → PyVal
  | pfloat : ℚ → PyVal
  | pstr : String → PyVal
  | pbool : Bool → PyVal
deriving DecidableEq, Repr

/-- Python truthiness (`bool(value)`) for the modelled values: `None`,
numeric zero, the empty string and `False` are falsy. -/
def pyTruthy : PyVal → Bool
  | .pnone => false
  | .pint n => decide (n ≠ 0)
  | .pfloat q => decide (q ≠ 0)
  | .pstr s => decide (s ≠ "")
  | .pbool b => b

/-- The whitespace characters `str.strip()` removes (the ASCII ones the app
can receive from a text input). -/
def pyIsSpace (c : Char) : Bool :=
  c = ' ' || c = '\t' || c = '\n' || c = '\r' || c = '\x0b' || c = '\x0c'

/-- Python `value.strip()`: drop leading and trailing whitespace. -/
def pyStrip (s : String) : String :=
  ⟨((s.data.dropWhile pyIsSpace).reverse.dropWhile pyIsSpace).reverse⟩

/-- The second half of the guard in `validate_input`:
`isinstance(value, str) and len(value.strip()) == 0`. -/
def strBlankCheck : PyVal → Bool
  | .pstr s => decide ((pyStrip s).length = 0)
  | _ => false

/-- `validate_input(**kwargs)`: scans the keyword arguments in order and
raises `ValueError(f"{field} cannot be empty!")` at the first value that is
falsy or is a whitespace-only string. -/
def validate_input : List (String × PyVal) → Except AppError Unit
  | [] => .ok ()
  | (field, v) :: rest =>
    if !pyTruthy v || strBlankCheck v then .error (.validationError field)
    else validate_input rest

/-- The purchases form submit handler:
`validate_input(ProductName=product_name, Vendor=vendor)` then
`add_record("purchases", (product_name, price, quantity, vendor, purchase_date))`. -/
def submit_purchase (db : DB) (product_name : String) (price : ℚ) (quantity : Int)
    (vendor purchase_date : String) : Except AppError (DB × Option Nat) := do
  validate_input [("ProductName", .pstr product_name), ("Vendor", .pstr vendor)]
  add_record db .purchases
    [.text product_name, .real price, .int quantity, .text vendor, .text purchase_date]

/-- The sales form submit handler:
`validate_input(ProductName=product_name, Customer=customer)` then
`add_record("sales", (product_name, price, quantity, customer, sale_date))`. -/
def submit_sale (db : DB) (product_name : String) (price : ℚ) (quantity : Int)
    (customer sale_date : String) : Except AppError (DB × Option Nat) := do
  validate_input [("ProductName", .pstr product_name), ("Customer", .pstr customer)]
  add_record db .sales
    [.text product_name, .real price, .int quantity, .text customer, .text sale_date]

/-- The orders form submit handler: `validate_input(ProductName=product_name)`
then `add_record("orders", (product_name, quantity, status, order_date))`. -/
def submit_order (db : DB) (product_name : String) (quantity : Int)
    (status order_date : String) : Except AppError (DB × Option Nat) := do
  validate_input [("ProductName", .pstr product_name)]
  add_record db .orders [.text product_name, .int quantity, .text status, .text order_date]

/-- Store state after the purchases submit handler (the `except ValueError`
branch displays the error; the store is untouched on failure). -/
def applySubmitPurchase (db : DB) (product_name : String) (price : ℚ) (quantity : Int)
    (vendor purchase_date : String) : DB :=
  match submit_purchase db product_name price quantity vendor purchase_date with
  | .ok p => p.1
  | .error _ => db

/-- Store state after the sales submit handler. -/
def applySubmitSale (db : DB) (product_name : String) (price : ℚ) (quantity : Int)
    (customer sale_date : String) : DB :=
  match submit_sale db product_name price quantity customer sale_date with
  | .ok p => p.1
  | .error _ => db

/-- Store state after the orders submit handler. -/
def applySubmitOrder (db : DB) (product_name : String) (quantity : Int)
    (status order_date : String) : DB :=
  match submit_order db product_name quantity status order_date with
  | .ok p => p.1
  | .error _ => db

/-! ## CSV export (`generate_csv_download` / `DataFrame.to_csv(index=False)`)

`to_csv` writes a header line of the column names, then one line per row,
fields separated by `,` and each line terminated by `'\n'`.  Fields are
quoted minimally (the `csv.QUOTE_MINIMAL` discipline): a field containing a
separator, a quote or a line break is wrapped in double quotes with inner
quotes doubled.  A CSV parser for exactly this format is defined alongside,
to state the export/parse round trip. -/

/-- Does `to_csv` need to quote this field?  (It contains the delimiter, the
quote character or a line terminator character.) -/
def needsQuote (f : List Char) : Bool :=
  f.any fun c => c = ',' || c = '"' || c = '\n' || c = '\r'

/-- Double every quote character, the CSV escape. -/
def escapeQuotes : List Char → List Char
  | [] => []
  | c :: rest =>
    if c = '"' then '"' :: '"' :: escapeQuotes rest else c :: escapeQuotes rest

/-- Serialize one field, quoting it when required. -/
def renderField (f : List Char) : List Char :=
  if needsQuote f then '"' :: (escapeQuotes f ++ ['"']) else f

/-- Serialize one line: fields joined by the `,` delimiter. -/
def renderLine : List (List Char) → List Char
  | [] => []
  | [f] => renderField f
  | f :: fs => renderField f ++ ',' :: renderLine fs

/-- Serialize a table: every line (header included when present in the
list) terminated by `'\n'`, as `to_csv` emits. -/
def renderCsv (rows : List (List (List Char))) : List Char :=
  (rows.map fun r => renderLine r ++ ['\n']).flatten

/-- Parse the body of a quoted field, the opening quote already consumed:
returns the field content and the text after the closing quote.  A doubled
quote is content; a lone quote closes the field; an unterminated field is a
parse error. -/
def parseQuoted : List Char → Option (List Char × List Char)
  | [] => none
  | c :: rest =>
    if c = '"' then
      match rest with
      | [] => some ([], [])
      | c2 :: rest2 =>
        if c2 = '"' then (parseQuoted rest2).map fun p => ('"' :: p.1, p.2)
        else some ([], rest)
    else (parseQuoted rest).map fun p => (c :: p.1, p.2)

/-- Parse an unquoted field: everything up to the next delimiter or line
break (or the end of input). -/
def parseRaw : List Char → List Char × List Char
  | [] => ([], [])
  | c :: rest =>
    if c = ',' || c = '\n' then ([], c :: rest)
    else
      let p := parseRaw rest
      (c :: p.1, p.2)

/-- Parse one field, quoted or not. -/
def parseField : List Char → Option (List Char × List Char)
  | [] => some ([], [])
  | c :: rest => if c = '"' then parseQuoted rest else some (parseRaw (c :: rest))

/-- Parse one line: fields separated by `,`, ended by `'\n'` (or by the end
of input).  `fuel` bounds the number of fields. -/
def parseLineFuel : Nat → List Char → Option (List (List Char) × List Char)
  | 0, _ => none
  | fuel + 1, s =>
    match parseField s with
    | none => none
    | some (f, rest) =>
      match rest with
      | [] => some ([f], [])
      | c :: r =>
        if c = '\n' then some ([f], r)
        else if c = ',' then (parseLineFuel fuel r).map fun p => (f :: p.1, p.2)
        else none

/-- Parse a whole CSV text into its lines; `fuel` bounds the number of
lines (each line consumes at least its `'\n'` terminator, so the input
length bounds the line count). -/
def parseCsvFuel : Nat → List Char → Option (List (List (List Char)))
  | 0, s => if s = [] then some [] else none
  | fuel + 1, s =>
    if s = [] then some []
    else
      match parseLineFuel (s.length + 1) s with
      | none => none
      | some (fields, rest) => (parseCsvFuel fuel rest).map fun rs => fields :: rs

/-- Parse a CSV text (each line holds at least one field and consumes at
least its terminator, so the input length bounds both fuels). -/
def parseCsv (s : List Char) : Option (List (List (List Char))) :=
  parseCsvFuel (s.length + 1) s

/-- How a stored value appears as a DataFrame cell in the CSV text. -/
def valueToCell : Value → List Char
  | .null => []
  | .int n => (toString n).toList
  | .real q => (toString q).toList
  | .text s => s.toList

/-- The CSV text `generate_csv_download` exports for a table: the header of
column names (in table order, `id` included since the DataFrame carries it
as an ordinary column and `index=False` only drops the positional index),
then one line per fetched row. -/
def dataframe_to_csv (db : DB) (tn : TableName) : List Char :=
  renderCsv (((tableColumns tn).map String.toList) ::
    (fetch_data db tn).map fun r => r.map valueToCell)

/-! ## Store invariant

Reachable stores have strictly increasing ids within each table, all below
the AUTOINCREMENT counter. -/

/-- Table invariant: ids in rowid order are strictly increasing, every id is
below the sequence counter, and every row has one value per non-id column. -/
def Table.wf (t : Table) (arity : Nat) : Prop :=
  (t.rows.map Row.id).Pairwise (· < ·) ∧ (∀ r ∈ t.rows, r.id < t.nextId) ∧
    ∀ r ∈ t.rows, r.fields.length = arity

/-- Store invariant: every table is well-formed at its schema arity. -/
def DB.wf (db : DB) : Prop :=
  db.purchases.wf (tableArity .purchases) ∧ db.sales.wf (tableArity .sales) ∧
    db.orders.wf (tableArity .orders)

instance (t : Table) (arity : Nat) : Decidable (t.wf arity) := by
  unfold Table.wf; infer_instance

instance (db : DB) : Decidable db.wf := by unfold DB.wf; infer_instance

/-- Decidable equality of call results, so concrete runs can be checked by
`decide`. -/
instance {ε α : Type} [DecidableEq ε] [DecidableEq α] : DecidableEq (Except ε α) := fun
  | .ok a, .ok b => decidable_of_iff (a = b) (by simp)
  | .ok _, .error _ => isFalse (by simp)
  | .error _, .ok _ => isFalse (by simp)
  | .error e, .error f => decidable_of_iff (e = f) (by simp)

/-! ## Sample states used by witnesses and counterexamples -/

/-- The §8 scenario purchase `("Widget", 9.99, 3, "Acme Co", 2024-01-15)`. -/
def sampleData : List Value :=
  [.text "Widget", .real (mkRat 999 100), .int 3, .text "Acme Co", .text "2024-01-15"]

/-- The store after inserting the sample purchase into a fresh database. -/
def sampleDB1 : DB := applyAdd initDB .purchases sampleData

/-- The store after inserting the §8 scenario order
`("Gadget", 2, "Pending", 2024-02-01)` into a fresh database. -/
def sampleOrderDB : DB :=
  applyAdd initDB .orders [.text "Gadget", .int 2, .text "Pending", .text "2024-02-01"]

/-- The sample order store after marking order 1 `Completed`. -/
def applyUpdateCompleted : DB :=
  match update_record_status sampleOrderDB .orders 1 "Completed" with
  | .ok db => db
  | .error _ => sampleOrderDB

/-! ## Validation -/

/-- "Empty or consists only of whitespace". -/
def isBlank (s : String) : Bool := s.data.all pyIsSpace

/-- `value.strip()` is empty exactly when every character is whitespace. -/
theorem pyStrip_length_zero_iff (s : String) :
    (pyStrip s).length = 0 ↔ s.data.all pyIsSpace = true := by
  show (((s.data.dropWhile pyIsSpace).reverse.dropWhile pyIsSpace).reverse).length = 0 ↔ _
  rw [List.length_eq_zero, List.reverse_eq_nil_iff, List.dropWhile_eq_nil_iff,
    List.all_eq_true]
  constructor
  · intro h x hx
    have hsplit := List.takeWhile_append_dropWhile pyIsSpace s.data
    rcases List.mem_append.mp (hsplit ▸ hx) with htk | hdr
    · exact List.mem_takeWhile_imp htk
    · exact h x (List.mem_reverse.mpr hdr)
  · intro h x hx
    exact h x ((List.dropWhile_sublist pyIsSpace).mem (List.mem_reverse.mp hx))

/-- The `validate_input` guard fires on a string value exactly when the
string is blank. -/
theorem validate_guard_pstr (s : String) :
    (!pyTruthy (.pstr s) || strBlankCheck (.pstr s)) = isBlank s := by
  by_cases hs : s = ""
  · subst hs; rfl
  · show (!decide (s ≠ "") || decide ((pyStrip s).length = 0)) = isBlank s
    rw [decide_eq_true (show s ≠ "" from hs), Bool.not_true, Bool.false_or,
      Bool.eq_iff_iff, decide_eq_true_iff]
    exact pyStrip_length_zero_iff s

/-- `validate_input` raises on a leading blank string field. -/
theorem validate_input_cons_blank (field s : String) (rest : List (String × PyVal))
    (h : isBlank s = true) :
    validate_input ((field, .pstr s) :: rest) = .error (.validationError field) := by
  show (if !pyTruthy (.pstr s) || strBlankCheck (.pstr s) then _ else _) = _
  rw [validate_guard_pstr, h, if_pos rfl]

/-- `validate_input` skips a leading non-blank string field. -/
theorem validate_input_cons_nonblank (field s : String) (rest : List (String × PyVal))
    (h : isBlank s = false) :
    validate_input ((field, .pstr s) :: rest) = validate_input rest := by
  show (if !pyTruthy (.pstr s) || strBlankCheck (.pstr s) then _ else _) = _
  rw [validate_guard_pstr, h, if_neg (by simp)]

/-- `validate_input` skips any leading field whose value passes both checks. -/
theorem validate_input_cons_pass (field : String) (v : PyVal) (rest : List (String × PyVal))
    (h1 : pyTruthy v = true) (h2 : strBlankCheck v = false) :
    validate_input ((field, v) :: rest) = validate_input rest := by
  show (if !pyTruthy v || strBlankCheck v then _ else _) = _
  rw [h1, h2, Bool.not_true, Bool.false_or, if_neg (by simp)]

/-- `validate_input` raises on a leading falsy value. -/
theorem validate_input_cons_falsy (field : String) (v : PyVal) (rest : List (String × PyVal))
    (h : pyTruthy v = false) :
    validate_input ((field, v) :: rest) = .error (.validationError field) := by
  show (if !pyTruthy v || strBlankCheck v then _ else _) = _
  rw [h, Bool.not_false, Bool.true_or, if_pos rfl]

/-- C10: `validate_input` rejects any falsy argument value, not only empty
strings: if the values before `field` pass the guard and `field`'s value is
falsy (`None`, numeric zero, `False`, the empty string), it raises a
`ValidationError` naming `field`. -/
theorem validate_input_rejects_falsy (pre : List (String × PyVal)) (field : String)
    (v : PyVal) (post : List (String × PyVal))
    (hpre : ∀ p ∈ pre, pyTruthy p.2 = true ∧ strBlankCheck p.2 = false)
    (hv : pyTruthy v = false) :
    validate_input (pre ++ (field, v) :: post) = .error (.validationError field) := by
  induction pre with
  | nil => exact validate_input_cons_falsy field v post hv
  | cons p pre ih =>
    obtain ⟨h1, h2⟩ := hpre p (List.mem_cons_self p pre)
    rw [List.cons_append, validate_input_cons_pass p.1 p.2 _ h1 h2]
    exact ih fun q hq => hpre q (List.mem_cons_of_mem p hq)

/-- C10 witness: `validate_input(Customer="Acme", OrderDate=None)` raises a
`ValidationError` naming `OrderDate`, though `None` is not empty text. -/
theorem validate_input_rejects_falsy_witness :
    validate_input [("Customer", .pstr "Acme"), ("OrderDate", .pnone)] =
      .error (.validationError "OrderDate") :=
  validate_input_rejects_falsy [("Customer", .pstr "Acme")] "OrderDate" .pnone []
    (by decide) rfl

/-- A submit handler propagates a validation failure without touching the
store: `Except` bind short-circuits on `error`. -/
theorem submit_purchase_of_validate_error (db : DB) (pn : String) (price : ℚ)
    (qty : Int) (vendor pdate : String) (err : AppError)
    (h : validate_input [("ProductName", .pstr pn), ("Vendor", .pstr vendor)] = .error err) :
    submit_purchase db pn price qty vendor pdate = .error err := by
  unfold submit_purchase
  rw [h]; rfl

/-- Sales analogue of `submit_purchase_of_validate_error`. -/
theorem submit_sale_of_validate_error (db : DB) (pn : String) (price : ℚ)
    (qty : Int) (customer sdate : String) (err : AppError)
    (h : validate_input [("ProductName", .pstr pn), ("Customer", .pstr customer)] = .error err) :
    submit_sale db pn price qty customer sdate = .error err := by
  unfold submit_sale
  rw [h]; rfl

/-- Orders analogue of `submit_purchase_of_validate_error`. -/
theorem submit_order_of_validate_error (db : DB) (pn : String) (qty : Int)
    (status odate : String) (err : AppError)
    (h : validate_input [("ProductName", .pstr pn)] = .error err) :
    submit_order db pn qty status odate = .error err := by
  unfold submit_order
  rw [h]; rfl

/-- C1: on each of the three forms, a submit whose required text fields
include a blank one (empty or whitespace-only `product_name`, `vendor`,
`customer`) fails with a `ValidationError` and leaves the store — hence
every table's row count — unchanged: the error is raised before
`add_record` can touch storage. -/
theorem blank_required_field_fails_validation :
    (∀ (db : DB) (pn : String) (price : ℚ) (qty : Int) (vendor pdate : String),
      isBlank pn = true ∨ isBlank vendor = true →
      (∃ f, submit_purchase db pn price qty vendor pdate = .error (.validationError f)) ∧
      applySubmitPurchase db pn price qty vendor pdate = db) ∧
    (∀ (db : DB) (pn : String) (price : ℚ) (qty : Int) (customer sdate : String),
      isBlank pn = true ∨ isBlank customer = true →
      (∃ f, submit_sale db pn price qty customer sdate = .error (.validationError f)) ∧
      applySubmitSale db pn price qty customer sdate = db) ∧
    (∀ (db : DB) (pn : String) (qty : Int) (status odate : String),
      isBlank pn = true →
      (∃ f, submit_order db pn qty status odate = .error (.validationError f)) ∧
      applySubmitOrder db pn qty status odate = db) := by
  refine ⟨?_, ?_, ?_⟩
  · intro db pn price qty vendor pdate h
    have herr : ∃ f, validate_input [("ProductName", .pstr pn), ("Vendor", .pstr vendor)] =
        .error (.validationError f) := by
      by_cases hpn : isBlank pn = true
      · exact ⟨"ProductName", validate_input_cons_blank _ pn _ hpn⟩
      · rcases h with h | h
        · exact absurd h hpn
        · refine ⟨"Vendor", ?_⟩
          rw [validate_input_cons_nonblank _ pn _ (Bool.eq_false_iff.mpr hpn)]
          exact validate_input_cons_blank _ vendor _ h
    obtain ⟨f, hf⟩ := herr
    have hsub := submit_purchase_of_validate_error db pn price qty vendor pdate _ hf
    exact ⟨⟨f, hsub⟩, by unfold applySubmitPurchase; rw [hsub]⟩
  · intro db pn price qty customer sdate h
    have herr : ∃ f, validate_input [("ProductName", .pstr pn), ("Customer", .pstr customer)] =
        .error (.validationError f) := by
      by_cases hpn : isBlank pn = true
      · exact ⟨"ProductName", validate_input_cons_blank _ pn _ hpn⟩
      · rcases h with h | h
        · exact absurd h hpn
        · refine ⟨"Customer", ?_⟩
          rw [validate_input_cons_nonblank _ pn _ (Bool.eq_false_iff.mpr hpn)]
          exact validate_input_cons_blank _ customer _ h
    obtain ⟨f, hf⟩ := herr
    have hsub := submit_sale_of_validate_error db pn price qty customer sdate _ hf
    exact ⟨⟨f, hsub⟩, by unfold applySubmitSale; rw [hsub]⟩
  · intro db pn qty status odate h
    have hf := validate_input_cons_blank "ProductName" pn [] h
    have hsub := submit_order_of_validate_error db pn qty status odate _ hf
    exact ⟨⟨"ProductName", hsub⟩, by unfold applySubmitOrder; rw [hsub]⟩

/-- C1 witness: submitting a purchase with a whitespace-only vendor fails
with a `ValidationError` and leaves the fresh store unchanged. -/
theorem blank_required_field_fails_validation_witness :
    (∃ f, submit_purchase initDB "Widget" (mkRat 999 100) 3 "   " "2024-01-15" =
      .error (.validationError f)) ∧
    applySubmitPurchase initDB "Widget" (mkRat 999 100) 3 "   " "2024-01-15" = initDB :=
  blank_required_field_fails_validation.1 initDB "Widget" (mkRat 999 100) 3 "   "
    "2024-01-15" (Or.inr (by decide))

/-! ## `add_record` -/

/-- Reading back the table just replaced. -/
theorem dbTable_set_self (db : DB) (tn : TableName) (t : Table) :
    dbTable (setDbTable db tn t) tn = t := by
  cases tn <;> rfl

/-- Replacing one table leaves the others untouched. -/
theorem dbTable_set_ne (db : DB) (tn tn' : TableName) (t : Table) (h : tn' ≠ tn) :
    dbTable (setDbTable db tn t) tn' = dbTable db tn' := by
  cases tn <;> cases tn' <;> first | rfl | exact absurd rfl h

/-- C2 counterexample: inserting the §8 sample purchase into a fresh store
succeeds and the store generates id 1 for the new row, but the value
`add_record` hands back to its caller is `None` — not the generated id. -/
theorem add_record_return_value_cex :
    (add_record initDB .purchases sampleData).toOption.map Prod.snd = some none ∧
    sampleDB1.purchases.rows.map Row.id = [1] ∧
    some (none : Option Nat) ≠ some (some 1) :=
  ⟨by decide, by decide, by simp⟩

/-- C2 amended: a successful `add_record` call appends one row under the
freshly generated id, but returns `None`: the generated id is recorded in
the table, not returned to the caller. -/
theorem add_record_returns_none (db : DB) (tn : TableName) (data : List Value)
    (db' : DB) (ret : Option Nat) (h : add_record db tn data = .ok (db', ret)) :
    ret = none ∧
    (dbTable db' tn).rows = (dbTable db tn).rows ++
      [{ id := (dbTable db tn).nextId, fields := data }] := by
  unfold add_record at h
  split at h
  · exact absurd h (by simp)
  · split at h
    · simp only [Except.ok.injEq, Prod.mk.injEq] at h
      obtain ⟨hdb, hret⟩ := h
      subst hdb
      exact ⟨hret.symm, by rw [dbTable_set_self]⟩
    · exact absurd h (by simp)

/-- C2 amended witness: the sample insert returns `None` while the new row
carries the generated id. -/
theorem add_record_returns_none_witness :
    (none : Option Nat) = none ∧
    (dbTable sampleDB1 .purchases).rows = (dbTable initDB .purchases).rows ++
      [{ id := (dbTable initDB .purchases).nextId, fields := sampleData }] :=
  add_record_returns_none initDB .purchases sampleData sampleDB1 none (by decide)

/-- C3: an insert with a negative price or a non-positive quantity is
rejected by the schema's CHECK constraints with a `ConstraintViolation`, and
the store — in particular the target table's rows — is unchanged: no partial
write occurs.  (The `orders` table has no price column, so only the quantity
constraint applies there.) -/
theorem add_record_invalid_price_quantity_rejected :
    (∀ (db : DB) (n : String) (p : ℚ) (q : Int) (v d : String), p < 0 ∨ q ≤ 0 →
      add_record db .purchases [.text n, .real p, .int q, .text v, .text d] =
        .error .constraintViolation ∧
      applyAdd db .purchases [.text n, .real p, .int q, .text v, .text d] = db) ∧
    (∀ (db : DB) (n : String) (p : ℚ) (q : Int) (c d : String), p < 0 ∨ q ≤ 0 →
      add_record db .sales [.text n, .real p, .int q, .text c, .text d] =
        .error .constraintViolation ∧
      applyAdd db .sales [.text n, .real p, .int q, .text c, .text d] = db) ∧
    (∀ (db : DB) (n : String) (q : Int) (s d : String), q ≤ 0 →
      add_record db .orders [.text n, .int q, .text s, .text d] =
        .error .constraintViolation ∧
      applyAdd db .orders [.text n, .int q, .text s, .text d] = db) := by
  refine ⟨?_, ?_, ?_⟩
  · intro db n p q v d h
    have hchk : rowCheck .purchases [.text n, .real p, .int q, .text v, .text d] = false := by
      simp only [rowCheck, Bool.and_eq_false_iff, decide_eq_false_iff_not, not_le, not_lt]
      rcases h with h | h
      · exact Or.inl h
      · exact Or.inr h
    have hadd : add_record db .purchases [.text n, .real p, .int q, .text v, .text d] =
        .error .constraintViolation := by
      unfold add_record
      rw [if_neg (by simp [tableArity]), hchk, if_neg (by simp)]
    exact ⟨hadd, by unfold applyAdd; rw [hadd]⟩
  · intro db n p q c d h
    have hchk : rowCheck .sales [.text n, .real p, .int q, .text c, .text d] = false := by
      simp only [rowCheck, Bool.and_eq_false_iff, decide_eq_false_iff_not, not_le, not_lt]
      rcases h with h | h
      · exact Or.inl h
      · exact Or.inr h
    have hadd : add_record db .sales [.text n, .real p, .int q, .text c, .text d] =
        .error .constraintViolation := by
      unfold add_record
      rw [if_neg (by simp [tableArity]), hchk, if_neg (by simp)]
    exact ⟨hadd, by unfold applyAdd; rw [hadd]⟩
  · intro db n q s d h
    have hchk : rowCheck .orders [.text n, .int q, .text s, .text d] = false := by
      simp only [rowCheck, Bool.and_eq_false_iff, decide_eq_false_iff_not, not_lt]
      exact Or.inl h
    have hadd : add_record db .orders [.text n, .int q, .text s, .text d] =
        .error .constraintViolation := by
      unfold add_record
      rw [if_neg (by simp [tableArity]), hchk, if_neg (by simp)]
    exact ⟨hadd, by unfold applyAdd; rw [hadd]⟩

/-- C3 witness: inserting a purchase priced −1 into a fresh store fails with
`ConstraintViolation` and leaves the store unchanged. -/
theorem add_record_invalid_price_quantity_rejected_witness :
    add_record initDB .purchases
      [.text "W", .real (-1 : ℚ), .int 1, .text "V", .text "2024-01-15"] =
      .error .constraintViolation ∧
    applyAdd initDB .purchases
      [.text "W", .real (-1 : ℚ), .int 1, .text "V", .text "2024-01-15"] = initDB :=
  add_record_invalid_price_quantity_rejected.1 initDB "W" (-1 : ℚ) 1 "V" "2024-01-15"
    (Or.inl (by norm_num))

/-! ## `update_record_status` -/

/-- C7: updating the status of an id that matches no order row raises no
error and leaves the entire store unchanged — a silent no-op, zero rows
affected. -/
theorem update_status_missing_id_noop (db : DB) (rid : Nat) (newStatus : String)
    (h : ∀ r ∈ db.orders.rows, r.id ≠ rid) :
    update_record_status db .orders rid newStatus = .ok db := by
  have hany : (db.orders.rows.any fun r => r.id = rid) = false := by
    rw [List.any_eq_false]
    intro r hr
    simpa using h r hr
  show (if _ then _ else _) = _
  rw [hany, Bool.false_and, if_neg (by simp)]
  have hmap : (db.orders.rows.map fun r =>
      if r.id = rid then setStatus r newStatus else r) = db.orders.rows := by
    calc (db.orders.rows.map fun r => if r.id = rid then setStatus r newStatus else r)
        = db.orders.rows.map id := List.map_congr_left fun r hr => if_neg (h r hr)
      _ = db.orders.rows := List.map_id db.orders.rows
  unfold updatedOrders
  rw [hmap]

/-- C7 witness: with only order id 1 present, updating id 99 returns the
store unchanged without an error. -/
theorem update_status_missing_id_noop_witness :
    update_record_status sampleOrderDB .orders 99 "Completed" = .ok sampleOrderDB :=
  update_status_missing_id_noop sampleOrderDB 99 "Completed" (by decide)

/-- Anatomy of a successful insert: the guards passed, the caller got
`None`, and the named table gained one row under the fresh id while the
sequence advanced. -/
theorem add_record_ok (db : DB) (tn : TableName) (data : List Value) (db' : DB)
    (ret : Option Nat) (h : add_record db tn data = .ok (db', ret)) :
    ret = none ∧ data.length = tableArity tn ∧ rowCheck tn data = true ∧
    db' = setDbTable db tn
      { rows := (dbTable db tn).rows ++ [{ id := (dbTable db tn).nextId, fields := data }],
        nextId := (dbTable db tn).nextId + 1 } := by
  unfold add_record at h
  split at h
  · exact absurd h (by simp)
  · next hlen =>
    split at h
    · next hchk =>
      simp only [Except.ok.injEq, Prod.mk.injEq] at h
      exact ⟨h.2.symm, by omega, hchk, h.1.symm⟩
    · exact absurd h (by simp)

/-- Anatomy of a successful status update: the new state maps the status
rewrite over the order rows. -/
theorem update_record_status_ok (db : DB) (rid : Nat) (newStatus : String) (db' : DB)
    (h : update_record_status db .orders rid newStatus = .ok db') :
    db' = updatedOrders db rid newStatus := by
  by_cases hc : ((db.orders.rows.any fun r => r.id = rid) && !statusOk newStatus) = true
  · have herr : update_record_status db .orders rid newStatus =
        .error .constraintViolation := by
      show (if _ then _ else _) = _
      rw [if_pos hc]
    rw [herr] at h
    exact Except.noConfusion h
  · have hok : update_record_status db .orders rid newStatus =
        .ok (updatedOrders db rid newStatus) := by
      show (if _ then _ else _) = _
      rw [if_neg hc]
    rw [hok] at h
    injection h with h
    exact h.symm

/-- Rewriting the status cell never touches the row id. -/
theorem setStatus_id (r : Row) (newStatus : String) : (setStatus r newStatus).id = r.id := rfl

/-- Rewriting the status cell twice is the same as once. -/
theorem setStatus_setStatus (r : Row) (newStatus : String) :
    setStatus (setStatus r newStatus) newStatus = setStatus r newStatus := by
  unfold setStatus
  simp [List.set_set]

/-- A valid status value passes the CHECK enumeration. -/
theorem statusOk_of_valid (s : String) (h : s = "Pending" ∨ s = "Completed") :
    statusOk s = true := by
  rcases h with h | h <;> simp [statusOk, h]

/-- The status rewrite is idempotent on the whole store. -/
theorem updatedOrders_idem (db : DB) (rid : Nat) (newStatus : String) :
    updatedOrders (updatedOrders db rid newStatus) rid newStatus =
      updatedOrders db rid newStatus := by
  have hmap : ((db.orders.rows.map fun r =>
        if r.id = rid then setStatus r newStatus else r).map fun r =>
        if r.id = rid then setStatus r newStatus else r) =
      db.orders.rows.map fun r => if r.id = rid then setStatus r newStatus else r := by
    rw [List.map_map]
    refine List.map_congr_left fun r _ => ?_
    by_cases hid : r.id = rid
    · simp [hid, setStatus_id, setStatus_setStatus]
    · simp [hid]
  exact congrArg
    (fun t => ({ db with orders := { db.orders with rows := t } } : DB)) hmap

/-- C6: updating an existing order id to a valid status succeeds, sets that
order's status cell to the given value, and is idempotent: running the very
same update again returns the same store. -/
theorem update_status_sets_value_idempotent (db : DB) (rid : Nat) (newStatus : String)
    (hwf : db.wf) (hex : ∃ r ∈ db.orders.rows, r.id = rid)
    (hs : newStatus = "Pending" ∨ newStatus = "Completed") :
    ∃ db1, update_record_status db .orders rid newStatus = .ok db1 ∧
      (∃ r ∈ db1.orders.rows, r.id = rid ∧ r.fields.get? 2 = some (.text newStatus)) ∧
      update_record_status db1 .orders rid newStatus = .ok db1 := by
  have hso := statusOk_of_valid newStatus hs
  refine ⟨updatedOrders db rid newStatus, ?_, ?_, ?_⟩
  · show (if _ then _ else _) = _
    rw [hso]
    simp
  · obtain ⟨r, hr, hid⟩ := hex
    refine ⟨setStatus r newStatus, ?_, by rw [setStatus_id]; exact hid, ?_⟩
    · show setStatus r newStatus ∈ db.orders.rows.map fun r =>
        if r.id = rid then setStatus r newStatus else r
      have hmem : (if r.id = rid then setStatus r newStatus else r) ∈
          db.orders.rows.map fun r => if r.id = rid then setStatus r newStatus else r :=
        List.mem_map_of_mem _ hr
      rwa [if_pos hid] at hmem
    · have hlen : r.fields.length = 4 := hwf.2.2.2.2 r hr
      show (r.fields.set 2 (.text newStatus)).get? 2 = _
      rw [List.get?_eq_getElem?, List.getElem?_set_self (by omega)]
  · have hcond : (((updatedOrders db rid newStatus).orders.rows.any fun r =>
        r.id = rid) && !statusOk newStatus) = false := by
      rw [hso]
      simp
    show (if _ then _ else _) = _
    rw [hcond]
    simp [updatedOrders_idem]

/-- C6 witness: marking the single pending sample order (id 1) `Completed`
succeeds, sets its status, and a second identical update returns the same
store. -/
theorem update_status_sets_value_idempotent_witness :
    ∃ db1, update_record_status sampleOrderDB .orders 1 "Completed" = .ok db1 ∧
      (∃ r ∈ db1.orders.rows, r.id = 1 ∧ r.fields.get? 2 = some (.text "Completed")) ∧
      update_record_status db1 .orders 1 "Completed" = .ok db1 :=
  update_status_sets_value_idempotent sampleOrderDB 1 "Completed" (by decide)
    (by decide) (Or.inr rfl)

/-- C9: status is the only field any operation changes after creation: a
successful insert only appends one fresh row (every pre-existing row of
every table is untouched), and a successful status update touches neither
`purchases` nor `sales`, preserves the order rows' count, positions and ids,
leaves every non-matching row entirely unchanged, and changes nothing but
the status cell (field index 2) of the matching row. -/
theorem status_only_mutable_field :
    (∀ (db : DB) (tn : TableName) (data : List Value) (db' : DB) (ret : Option Nat),
      add_record db tn data = .ok (db', ret) →
      (dbTable db' tn).rows = (dbTable db tn).rows ++
        [{ id := (dbTable db tn).nextId, fields := data }] ∧
      ∀ tn', tn' ≠ tn → dbTable db' tn' = dbTable db tn') ∧
    (∀ (db : DB) (rid : Nat) (newStatus : String) (db' : DB),
      update_record_status db .orders rid newStatus = .ok db' →
      db'.purchases = db.purchases ∧ db'.sales = db.sales ∧
      db'.orders.nextId = db.orders.nextId ∧
      db'.orders.rows.length = db.orders.rows.length ∧
      ∀ i r r', db.orders.rows.get? i = some r → db'.orders.rows.get? i = some r' →
        r'.id = r.id ∧ (r.id ≠ rid → r' = r) ∧
        ∀ j, j ≠ 2 → r'.fields.get? j = r.fields.get? j) := by
  constructor
  · intro db tn data db' ret h
    obtain ⟨-, -, -, hdb⟩ := add_record_ok db tn data db' ret h
    subst hdb
    exact ⟨by rw [dbTable_set_self], fun tn' hne => dbTable_set_ne db tn tn' _ hne⟩
  · intro db rid newStatus db' h
    have hdb := update_record_status_ok db rid newStatus db' h
    subst hdb
    refine ⟨rfl, rfl, rfl, by simp [updatedOrders], ?_⟩
    intro i r r' hr hr'
    simp only [List.get?_eq_getElem?] at hr hr'
    simp only [updatedOrders] at hr'
    rw [List.getElem?_map, hr] at hr'
    simp only [Option.map_some', Option.some.injEq] at hr'
    subst hr'
    by_cases hid : r.id = rid
    · rw [if_pos hid]
      refine ⟨setStatus_id r newStatus, fun hne => absurd hid hne, ?_⟩
      intro j hj
      show (r.fields.set 2 (.text newStatus)).get? j = _
      rw [List.get?_eq_getElem?, List.get?_eq_getElem?,
        List.getElem?_set_ne (fun hc => hj hc.symm)]
    · rw [if_neg hid]
      exact ⟨rfl, fun _ => rfl, fun j _ => rfl⟩

/-- C9 witness: on the sample order store, inserting a purchase appends only
it, and completing order 1 changes only that row's status cell. -/
theorem status_only_mutable_field_witness :
    ((dbTable sampleDB1 .purchases).rows = (dbTable initDB .purchases).rows ++
      [{ id := (dbTable initDB .purchases).nextId, fields := sampleData }] ∧
      ∀ tn', tn' ≠ TableName.purchases → dbTable sampleDB1 tn' = dbTable initDB tn') ∧
    ((applyUpdateCompleted).purchases = sampleOrderDB.purchases ∧
      (applyUpdateCompleted).sales = sampleOrderDB.sales ∧
      (applyUpdateCompleted).orders.nextId = sampleOrderDB.orders.nextId ∧
      (applyUpdateCompleted).orders.rows.length = sampleOrderDB.orders.rows.length ∧
      ∀ i r r', sampleOrderDB.orders.rows.get? i = some r →
        (applyUpdateCompleted).orders.rows.get? i = some r' →
        r'.id = r.id ∧ (r.id ≠ 1 → r' = r) ∧
        ∀ j, j ≠ 2 → r'.fields.get? j = r.fields.get? j) :=
  ⟨status_only_mutable_field.1 initDB .purchases sampleData sampleDB1 none (by decide),
   status_only_mutable_field.2 sampleOrderDB 1 "Completed" applyUpdateCompleted (by decide)⟩

/-! ## Reachable stores are well-formed -/

/-- The invariant of the named table, unpacked from the store invariant. -/
theorem DB.wf_table (db : DB) (hwf : db.wf) (tn : TableName) :
    (dbTable db tn).wf (tableArity tn) := by
  cases tn
  · exact hwf.1
  · exact hwf.2.1
  · exact hwf.2.2

/-- The fresh store satisfies the invariant. -/
theorem initDB_wf : initDB.wf := by decide

/-- Appending a row under the sequence id preserves the table invariant. -/
theorem Table.wf_insert (t : Table) (arity : Nat) (data : List Value)
    (hwf : t.wf arity) (hlen : data.length = arity) :
    Table.wf { rows := t.rows ++ [{ id := t.nextId, fields := data }],
               nextId := t.nextId + 1 } arity := by
  obtain ⟨hp, hlt, hlens⟩ := hwf
  refine ⟨?_, ?_, ?_⟩
  · rw [List.map_append, List.pairwise_append]
    refine ⟨hp, by simp, ?_⟩
    intro a ha b hb
    simp only [List.map_cons, List.map_nil, List.mem_singleton] at hb
    subst hb
    obtain ⟨r, hr, hra⟩ := List.mem_map.mp ha
    subst hra
    exact hlt r hr
  · intro r hr
    rcases List.mem_append.mp hr with hr | hr
    · exact Nat.lt_succ_of_lt (hlt r hr)
    · simp only [List.mem_singleton] at hr
      subst hr
      exact Nat.lt_succ_self _
  · intro r hr
    rcases List.mem_append.mp hr with hr | hr
    · exact hlens r hr
    · simp only [List.mem_singleton] at hr
      subst hr
      exact hlen

/-- A successful insert preserves the store invariant. -/
theorem wf_add_record (db : DB) (tn : TableName) (data : List Value) (db' : DB)
    (ret : Option Nat) (hwf : db.wf) (h : add_record db tn data = .ok (db', ret)) :
    db'.wf := by
  obtain ⟨-, hlen, -, hdb⟩ := add_record_ok db tn data db' ret h
  subst hdb
  obtain ⟨h1, h2, h3⟩ := hwf
  cases tn
  · exact ⟨Table.wf_insert _ _ _ h1 hlen, h2, h3⟩
  · exact ⟨h1, Table.wf_insert _ _ _ h2 hlen, h3⟩
  · exact ⟨h1, h2, Table.wf_insert _ _ _ h3 hlen⟩

/-- A successful status update preserves the store invariant: ids, row
count and field counts are untouched. -/
theorem wf_update_record_status (db : DB) (rid : Nat) (newStatus : String) (db' : DB)
    (hwf : db.wf) (h : update_record_status db .orders rid newStatus = .ok db') :
    db'.wf := by
  rw [update_record_status_ok db rid newStatus db' h]
  obtain ⟨h1, h2, h3⟩ := hwf
  obtain ⟨hp, hlt, hlens⟩ := h3
  have hid : ((db.orders.rows.map fun r =>
      if r.id = rid then setStatus r newStatus else r).map Row.id) =
      db.orders.rows.map Row.id := by
    rw [List.map_map]
    refine List.map_congr_left fun r _ => ?_
    by_cases hidr : r.id = rid
    · simp [hidr, setStatus_id]
    · simp [hidr]
  refine ⟨h1, h2, ?_, ?_, ?_⟩
  · show ((db.orders.rows.map fun r =>
      if r.id = rid then setStatus r newStatus else r).map Row.id).Pairwise (· < ·)
    rw [hid]
    exact hp
  · intro r hr
    obtain ⟨r0, hr0, hfr⟩ := List.mem_map.mp hr
    subst hfr
    show Row.id _ < db.orders.nextId
    by_cases hidr : r0.id = rid
    · rw [if_pos hidr, setStatus_id]
      exact hlt r0 hr0
    · rw [if_neg hidr]
      exact hlt r0 hr0
  · intro r hr
    obtain ⟨r0, hr0, hfr⟩ := List.mem_map.mp hr
    subst hfr
    by_cases hidr : r0.id = rid
    · rw [if_pos hidr]
      show (r0.fields.set 2 (.text newStatus)).length = _
      rw [List.length_set]
      exact hlens r0 hr0
    · rw [if_neg hidr]
      exact hlens r0 hr0

/-- C4: on every table, a valid insert succeeds, and fetching afterwards
returns exactly the previous rows plus one new row holding the submitted
values under a freshly assigned id that no existing row carries and that is
strictly greater than every id previously assigned in that table; the store
invariant is maintained. -/
theorem add_then_fetch_exactly_one_new_row (db : DB) (tn : TableName) (data : List Value)
    (hwf : db.wf) (hlen : data.length = tableArity tn) (hchk : rowCheck tn data = true) :
    ∃ db1, add_record db tn data = .ok (db1, none) ∧
      fetch_data db1 tn = fetch_data db tn ++
        [.int ((dbTable db tn).nextId : Int) :: data] ∧
      (dbTable db tn).nextId ∉ (dbTable db tn).rows.map Row.id ∧
      (∀ r ∈ (dbTable db tn).rows, r.id < (dbTable db tn).nextId) ∧
      db1.wf := by
  have hok : add_record db tn data = .ok (setDbTable db tn
      { rows := (dbTable db tn).rows ++ [{ id := (dbTable db tn).nextId, fields := data }],
        nextId := (dbTable db tn).nextId + 1 }, none) := by
    unfold add_record
    rw [if_neg (by simp [hlen]), if_pos hchk]
  have hlt := (DB.wf_table db hwf tn).2.1
  refine ⟨_, hok, ?_, ?_, hlt, wf_add_record db tn data _ none hwf hok⟩
  · unfold fetch_data
    rw [dbTable_set_self, List.map_append]
    rfl
  · intro hmem
    obtain ⟨r, hr, hra⟩ := List.mem_map.mp hmem
    exact absurd (hra ▸ hlt r hr) (lt_irrefl _)

/-- C4 witness: inserting the sample purchase into a fresh store yields
exactly one new row with those values under fresh id 1. -/
theorem add_then_fetch_exactly_one_new_row_witness :
    ∃ db1, add_record initDB .purchases sampleData = .ok (db1, none) ∧
      fetch_data db1 .purchases = fetch_data initDB .purchases ++
        [.int ((dbTable initDB .purchases).nextId : Int) :: sampleData] ∧
      (dbTable initDB .purchases).nextId ∉ (dbTable initDB .purchases).rows.map Row.id ∧
      (∀ r ∈ (dbTable initDB .purchases).rows, r.id < (dbTable initDB .purchases).nextId) ∧
      db1.wf :=
  add_then_fetch_exactly_one_new_row initDB .purchases sampleData (by decide) (by decide)
    (by decide)

/-- C5: `fetch_all` returns every row of the named table — one result line
per stored row, all columns included with `id` first — in rowid (insertion)
order: the returned primary keys are strictly increasing. -/
theorem fetch_all_complete_ordered (db : DB) (tn : TableName) (hwf : db.wf) :
    fetch_data db tn = (dbTable db tn).rows.map (fun r => .int (r.id : Int) :: r.fields) ∧
    (fetch_data db tn).length = (dbTable db tn).rows.length ∧
    ((dbTable db tn).rows.map Row.id).Pairwise (· < ·) :=
  ⟨rfl, by simp [fetch_data], (DB.wf_table db hwf tn).1⟩

/-- C5 witness: on the sample store the fetched purchases are the stored
rows, id first, in increasing id order. -/
theorem fetch_all_complete_ordered_witness :
    fetch_data sampleDB1 .purchases =
      (dbTable sampleDB1 .purchases).rows.map (fun r => .int (r.id : Int) :: r.fields) ∧
    (fetch_data sampleDB1 .purchases).length = (dbTable sampleDB1 .purchases).rows.length ∧
    ((dbTable sampleDB1 .purchases).rows.map Row.id).Pairwise (· < ·) :=
  fetch_all_complete_ordered sampleDB1 .purchases (by decide)

/-! ## CSV round trip -/

/-- Parsing a quoted field body recovers the escaped content: the doubled
quotes collapse and the first lone quote closes the field. -/
theorem parseQuoted_escape (f rest : List Char) (h : rest.head? ≠ some '"') :
    parseQuoted (escapeQuotes f ++ '"' :: rest) = some (f, rest) := by
  induction f with
  | nil =>
    show parseQuoted ('"' :: rest) = some ([], rest)
    cases rest with
    | nil => rfl
    | cons c rs =>
      have hc : ¬c = '"' := by simpa using h
      simp [parseQuoted, hc]
  | cons a f ih =>
    by_cases ha : a = '"'
    · subst ha
      rw [show escapeQuotes ('"' :: f) = '"' :: '"' :: escapeQuotes f from by
        simp [escapeQuotes], List.cons_append, List.cons_append]
      rw [parseQuoted.eq_def]
      simp [ih]
    · rw [show escapeQuotes (a :: f) = a :: escapeQuotes f from by
        simp [escapeQuotes, ha], List.cons_append]
      rw [parseQuoted.eq_def]
      simp [ha, ih]

/-- Parsing an unquoted field stops exactly at the delimiter or line end. -/
theorem parseRaw_append (f rest : List Char)
    (hf : ∀ c ∈ f, c ≠ ',' ∧ c ≠ '\n')
    (hrest : rest = [] ∨ rest.head? = some ',' ∨ rest.head? = some '\n') :
    parseRaw (f ++ rest) = (f, rest) := by
  induction f with
  | nil =>
    show parseRaw rest = ([], rest)
    rcases hrest with h | h | h
    · subst h; rfl
    · cases rest with
      | nil => simp at h
      | cons c rs =>
        simp only [List.head?_cons, Option.some.injEq] at h
        simp [parseRaw, h]
    · cases rest with
      | nil => simp at h
      | cons c rs =>
        simp only [List.head?_cons, Option.some.injEq] at h
        simp [parseRaw, h]
  | cons a f ih =>
    obtain ⟨ha1, ha2⟩ := hf a (List.mem_cons_self a f)
    have hrec := ih fun c hc => hf c (List.mem_cons_of_mem a hc)
    simp [parseRaw, ha1, ha2, hrec]

/-- Parsing one rendered field recovers it and leaves the trailing separator
untouched, quoted or not. -/
theorem parseField_render (f rest : List Char)
    (hrest : rest.head? = some ',' ∨ rest.head? = some '\n') :
    parseField (renderField f ++ rest) = some (f, rest) := by
  have hrest' : rest.head? ≠ some '"' := by
    rcases hrest with h | h <;> simp [h]
  by_cases hq : needsQuote f = true
  · rw [show renderField f = '"' :: (escapeQuotes f ++ ['"']) from by
      simp [renderField, hq], List.cons_append, List.append_assoc,
      List.singleton_append]
    show (if ('"' : Char) = '"' then parseQuoted (escapeQuotes f ++ '"' :: rest)
      else some (parseRaw ('"' :: (escapeQuotes f ++ '"' :: rest)))) = some (f, rest)
    rw [if_pos rfl]
    exact parseQuoted_escape f rest hrest'
  · have hset : ∀ c ∈ f, ¬(c = ',' || c = '"' || c = '\n' || c = '\r') = true := by
      rw [← List.any_eq_false]
      exact Bool.eq_false_iff.mpr hq
    have hf : ∀ c ∈ f, c ≠ ',' ∧ c ≠ '\n' := by
      intro c hc
      have hc' := hset c hc
      simp only [Bool.or_eq_true, decide_eq_true_eq, not_or] at hc'
      exact ⟨hc'.1.1.1, hc'.1.2⟩
    have hraw := parseRaw_append f rest hf (Or.inr hrest)
    rw [show renderField f = f from by simp [renderField, hq]]
    cases hfc : f with
    | nil =>
      subst hfc
      rw [List.nil_append] at hraw ⊢
      cases rest with
      | nil => simp at hrest
      | cons c rs =>
        have hc : ¬c = '"' := by simpa using hrest'
        show (if c = '"' then _ else some (parseRaw (c :: rs))) = _
        rw [if_neg hc, hraw]
    | cons a f' =>
      have ha : ¬a = '"' := by
        have ha' := hset a (hfc ▸ List.mem_cons_self a f')
        simp only [Bool.or_eq_true, decide_eq_true_eq, not_or] at ha'
        exact ha'.1.1.2
      subst hfc
      show (if a = '"' then _ else some (parseRaw (a :: f' ++ rest))) = _
      rw [if_neg ha, hraw]

/-- A rendered line is at least one character per field (the separators and
terminator pay for every field but the first). -/
theorem renderLine_length (fields : List (List Char)) (h : fields ≠ []) :
    fields.length ≤ (renderLine fields).length + 1 := by
  induction fields with
  | nil => simp
  | cons f fs ih =>
    cases fs with
    | nil => simp [renderLine]
    | cons g gs =>
      have hrec := ih (by simp)
      show (f :: g :: gs).length ≤ (renderField f ++ ',' :: renderLine (g :: gs)).length + 1
      simp only [List.length_cons, List.length_append] at hrec ⊢
      omega

/-- Parsing one rendered line (with enough fuel for its fields) recovers the
fields and the text after the terminator. -/
theorem parseLineFuel_render (fields : List (List Char)) (tail : List Char) (fuel : Nat)
    (hne : fields ≠ []) (hfuel : fields.length ≤ fuel) :
    parseLineFuel fuel (renderLine fields ++ '\n' :: tail) = some (fields, tail) := by
  induction fields generalizing fuel tail with
  | nil => simp at hne
  | cons f fs ih =>
    cases fuel with
    | zero => simp at hfuel
    | succ fuel =>
      cases fs with
      | nil =>
        have hpf := parseField_render f ('\n' :: tail) (Or.inr rfl)
        show parseLineFuel (fuel + 1) (renderField f ++ '\n' :: tail) = some ([f], tail)
        simp [parseLineFuel, hpf]
      | cons g gs =>
        have hpf := parseField_render f (',' :: (renderLine (g :: gs) ++ '\n' :: tail))
          (Or.inl rfl)
        have hrec := ih tail fuel (by simp) (by simp at hfuel ⊢; omega)
        rw [show renderLine (f :: g :: gs) ++ '\n' :: tail =
          renderField f ++ ',' :: (renderLine (g :: gs) ++ '\n' :: tail) from by
            simp [renderLine]]
        simp [parseLineFuel, hpf, hrec]

/-- Unfolding `renderCsv` one line at a time. -/
theorem renderCsv_cons (r : List (List Char)) (rows : List (List (List Char))) :
    renderCsv (r :: rows) = renderLine r ++ '\n' :: renderCsv rows := by
  simp [renderCsv]

/-- Every rendered line contributes at least its terminator. -/
theorem renderCsv_length (rows : List (List (List Char))) :
    rows.length ≤ (renderCsv rows).length := by
  induction rows with
  | nil => simp [renderCsv]
  | cons r rows ih =>
    rw [renderCsv_cons]
    simp only [List.length_cons, List.length_append, List.length_cons]
    omega

/-- Parsing a rendered CSV text (with enough fuel for its lines) recovers
every line. -/
theorem parseCsvFuel_render (rows : List (List (List Char))) (fuel : Nat)
    (hne : ∀ r ∈ rows, r ≠ []) (hfuel : rows.length ≤ fuel) :
    parseCsvFuel fuel (renderCsv rows) = some rows := by
  induction rows generalizing fuel with
  | nil =>
    cases fuel with
    | zero => rfl
    | succ fuel => rfl
  | cons r rows ih =>
    cases fuel with
    | zero => simp at hfuel
    | succ fuel =>
      rw [renderCsv_cons]
      have hsne : renderLine r ++ '\n' :: renderCsv rows ≠ [] := by simp
      have hr : r ≠ [] := hne r (List.mem_cons_self r rows)
      have hlinefuel : r.length ≤ (renderLine r ++ '\n' :: renderCsv rows).length + 1 := by
        have := renderLine_length r hr
        simp only [List.length_append, List.length_cons]
        omega
      have hline := parseLineFuel_render r (renderCsv rows)
        ((renderLine r ++ '\n' :: renderCsv rows).length + 1) hr hlinefuel
      have hrec := ih fuel (fun q hq => hne q (List.mem_cons_of_mem r hq))
        (by simp at hfuel ⊢; omega)
      show (if _ then _ else _) = _
      rw [if_neg hsne, hline]
      show (parseCsvFuel fuel (renderCsv rows)).map (fun rs => r :: rs) = some (r :: rows)
      rw [hrec]
      rfl

/-- The CSV encode/parse round trip: parsing a rendered table recovers the
very same lines, provided no line is empty (every line of an exported
DataFrame has at least the `id` column). -/
theorem parseCsv_renderCsv (rows : List (List (List Char)))
    (hne : ∀ r ∈ rows, r ≠ []) :
    parseCsv (renderCsv rows) = some rows :=
  parseCsvFuel_render rows _ hne (Nat.le_succ_of_le (renderCsv_length rows))

/-- C8: exporting any fetched table to CSV (header line of the column names
in table order, one comma-separated line per record) and parsing that CSV
text back yields exactly the same lines — the same column order and the
same cell values for every row — for stores holding zero, one or many
rows. -/
theorem csv_export_roundtrip (db : DB) (tn : TableName) :
    parseCsv (dataframe_to_csv db tn) =
      some (((tableColumns tn).map String.toList) ::
        (fetch_data db tn).map fun r => r.map valueToCell) := by
  apply parseCsv_renderCsv
  intro r hr
  rcases List.mem_cons.mp hr with h | h
  · subst h
    cases tn <;> simp [tableColumns]
  · obtain ⟨row, hrow, hcell⟩ := List.mem_map.mp h
    subst hcell
    obtain ⟨r0, hr0, hrow0⟩ := List.mem_map.mp hrow
    subst hrow0
    simp

end SalesManager
